import Mathlib

/-!
Verification of the bulk-write encoder of `dynamixel2-rs`
(`src/instructions/bulk_write.rs`), a shallow embedding in Lean 4.

Bytes are modelled as `Nat` (values of Rust `u8` are < 256, `u16` < 65536);
buffers are `List Nat`.  The function `Bus::bulk_write` is embedded as a pure
function from the descriptor list and the (abstract) transport outcome to an
observable `Outcome` recording whether the code panicked, and otherwise the
parameter length requested from the transport, the filled parameter block and
the propagated transport result.
-/

/-- The per-motor write descriptor `BulkWriteData` (declared outside `src/`;
field names and types taken from its uses in `bulk_write.rs`: `motor_id : u8`,
`address : u16`, `data : impl AsRef<[u8]>`). -/
structure BulkWriteData where
  motor_id : Nat
  address : Nat
  data : List Nat
deriving DecidableEq, Repr

/-- Modelled from the spec: a transport-level error, "opaque pass-through";
only its identity matters, carried here as a numeric code. -/
structure TransportError where
  code : Nat
deriving DecidableEq, Repr

/-- The information interpolated into the panic message of `bulk_write`
when a descriptor's data length exceeds `u16::MAX`:
"data length ({}) for motor {} exceeds maximum size of {}". -/
structure PanicInfo where
  data_len : Nat
  motor_id : Nat
deriving DecidableEq, Repr

/-- Modelled from the spec: `write_u8(buffer, offset, value)` writes the given
integer at byte offset `offset`; the stored byte is the 8-bit value. -/
def write_u8_le (buffer : List Nat) (offset : Nat) (value : Nat) : List Nat :=
  buffer.set offset (value % 256)

/-- Modelled from the spec: `write_u16_le(buffer, offset, value)` writes the
given integer at byte offset `offset`, little-endian: low byte first. -/
def write_u16_le (buffer : List Nat) (offset : Nat) (value : Nat) : List Nat :=
  (buffer.set offset (value % 256)).set (offset + 1) (value / 256 % 256)

/-- `buffer[offset..][..data.len()].copy_from_slice(data)`: a verbatim copy of
`data` into `buffer` starting at `offset`. -/
def copy_from_slice (buffer : List Nat) (offset : Nat) (data : List Nat) : List Nat :=
  match data with
  | [] => buffer
  | d :: rest => copy_from_slice (buffer.set offset d) (offset + 1) rest

/-- The body of one iteration of the fill closure, acting on the shadowed
slice `&mut buffer[offset..]`: write the motor id at relative offset 0, the
address little-endian at 1, `data.len() as u16` little-endian at 3, then copy
the data at 5. -/
def fillOne (buffer : List Nat) (w : BulkWriteData) : List Nat :=
  copy_from_slice
    (write_u16_le
      (write_u16_le
        (write_u8_le buffer 0 w.motor_id)
        1 w.address)
      3 (w.data.length % 65536))
    5 w.data

/-- One iteration of the fill closure of `bulk_write`: the source reborrows
`let buffer = &mut buffer[offset..]` and mutates only within that suffix, so
the whole buffer after the iteration is the untouched prefix followed by the
mutated suffix. -/
def fillEntry (buffer : List Nat) (offset : Nat) (w : BulkWriteData) : List Nat :=
  buffer.take offset ++ fillOne (buffer.drop offset) w

/-- The fill closure of `bulk_write`: for each write, fill its entry and
advance the running offset by `5 + data.len()`. -/
def fillLoop (writes : List BulkWriteData) (buffer : List Nat) (offset : Nat) : List Nat :=
  match writes with
  | [] => buffer
  | w :: ws => fillLoop ws (fillEntry buffer offset w) (offset + (5 + w.data.length))

/-- The first pass of `bulk_write`: iterate the writes, panicking (modelled as
`Except.error` carrying the panic-message data) as soon as a descriptor's data
length exceeds `u16::MAX = 65535`, otherwise accumulating
`parameter_count += 5 + data.len()`. -/
def sizePass (writes : List BulkWriteData) (acc : Nat) : Except PanicInfo Nat :=
  match writes with
  | [] => .ok acc
  | w :: ws =>
    if w.data.length > 65535 then
      .error ⟨w.data.length, w.motor_id⟩
    else
      sizePass ws (acc + (5 + w.data.length))

/-- Modelled from the spec: the result `write_instruction` hands back to the
caller — `Ok(())` on success, the propagated transport error otherwise. -/
def transportResult (transport : Option TransportError) : Except TransportError Unit :=
  match transport with
  | none => .ok ()
  | some e => .error e

deriving instance DecidableEq for Except

/-- The observable outcome of a `bulk_write` call: either the function
panicked during the validation pass (so `write_instruction` was never
invoked), or `write_instruction` was invoked with the recorded parameter
length, the fill closure produced the recorded parameter block, and the
transport's result was returned to the caller. -/
inductive Outcome where
  | panicked (info : PanicInfo)
  | invoked (parameterLength : Nat) (buffer : List Nat) (result : Except TransportError Unit)
deriving DecidableEq, Repr

/-- Whether an outcome is a panic (no `Result` returned to the caller). -/
def Outcome.isPanic : Outcome → Bool
  | .panicked _ => true
  | .invoked _ _ _ => false

/-- `Bus::bulk_write` from `src/instructions/bulk_write.rs`: first pass
computes `parameter_count` and panics on an oversized data slice; then
`write_instruction(BROADCAST, BULK_WRITE, parameter_count, fill)` is invoked
(modelled from the spec: it allocates a buffer of exactly `parameter_count`
bytes, runs the fill closure on it, and transmits, failing only with a
transport-level error).  The broadcast target and instruction id are constants
not observable through the claims and are not modelled further. -/
def bulk_write (writes : List BulkWriteData) (transport : Option TransportError) : Outcome :=
  match sizePass writes 0 with
  | .error info => .panicked info
  | .ok parameter_count =>
    .invoked parameter_count
      (fillLoop writes (List.replicate parameter_count 0) 0)
      (transportResult transport)

/-- The total parameter length: Σ over the writes of `5 + data.len()`. -/
def parameterCount (writes : List BulkWriteData) : Nat :=
  match writes with
  | [] => 0
  | w :: ws => 5 + w.data.length + parameterCount ws

/-- The exact bytes of one encoded entry, as produced by `fillEntry`:
the motor id byte, the address little-endian (2 bytes), the data length
(truncated to `u16`) little-endian (2 bytes), then the data verbatim. -/
def entryBytes (w : BulkWriteData) : List Nat :=
  w.motor_id % 256 :: w.address % 256 :: w.address / 256 % 256 ::
    w.data.length % 256 :: w.data.length / 256 % 256 :: w.data

/-- The whole parameter block: the concatenation of the entries in input
order. -/
def entriesBytes (writes : List BulkWriteData) : List Nat :=
  (writes.map entryBytes).flatten

/-- The entry layout as the spec words it, for descriptors within the `u8` /
`u16` ranges: `[device_id: 1][register_address: 2 LE][payload_length: 2 LE]
[payload]`. -/
def entrySpec (w : BulkWriteData) : List Nat :=
  w.motor_id :: w.address % 256 :: w.address / 256 ::
    w.data.length % 256 :: w.data.length / 256 :: w.data

/-- Decoder of a parameter block, entry by entry, following the spec's entry
layout; stops on a malformed or empty remainder. -/
def decodeBlock (block : List Nat) : List BulkWriteData :=
  match block with
  | id :: a0 :: a1 :: l0 :: l1 :: rest =>
    let len := l0 + 256 * l1
    ⟨id, a0 + 256 * a1, rest.take len⟩ :: decodeBlock (rest.drop len)
  | _ => []
termination_by block.length
decreasing_by
  simp only [List.length_cons, List.length_drop]
  omega

/-- The running offset after the fill loop has processed all writes, starting
from `offset`. -/
def fillFinalOffset (writes : List BulkWriteData) (offset : Nat) : Nat :=
  match writes with
  | [] => offset
  | w :: ws => fillFinalOffset ws (offset + (5 + w.data.length))

/-- Every slice taken by the fill loop is in bounds of a buffer of length
`blen`: each entry needs `offset + 5 + data.len() ≤ blen`. -/
def fillInBounds (writes : List BulkWriteData) (offset : Nat) (blen : Nat) : Bool :=
  match writes with
  | [] => true
  | w :: ws =>
    decide (offset + (5 + w.data.length) ≤ blen) &&
      fillInBounds ws (offset + (5 + w.data.length)) blen

/-! ## Helper lemmas -/

/-- Copying into a buffer at a positive offset leaves the head untouched. -/
theorem copy_from_slice_cons (data : List Nat) (a : Nat) (l : List Nat) (n : Nat) :
    copy_from_slice (a :: l) (n + 1) data = a :: copy_from_slice l n data := by
  induction data generalizing a l n with
  | nil => rfl
  | cons d rest ih =>
    simp only [copy_from_slice, List.set_cons_succ]
    exact ih _ _ _

/-- Copying at offset 0 replaces the first `data.length` bytes verbatim. -/
theorem copy_from_slice_zero (data l : List Nat) (h : data.length ≤ l.length) :
    copy_from_slice l 0 data = data ++ l.drop data.length := by
  induction data generalizing l with
  | nil => simp [copy_from_slice]
  | cons d rest ih =>
    cases l with
    | nil => simp at h
    | cons p ps =>
      simp only [copy_from_slice, List.set_cons_zero, copy_from_slice_cons]
      simp only [List.length_cons] at h
      rw [ih ps (by omega)]
      simp

/-- Truncating a length to `u16` does not change its low byte. -/
theorem mod65536_mod256 (l : Nat) : l % 65536 % 256 = l % 256 := by omega

/-- Truncating a length to `u16` does not change its second little-endian
byte. -/
theorem mod65536_div256 (l : Nat) : l % 65536 / 256 % 256 = l / 256 % 256 := by omega

/-- The fill body produces exactly the entry bytes followed by the untouched
rest of the slice. -/
theorem fillOne_eq (post : List Nat) (w : BulkWriteData)
    (h : 5 + w.data.length ≤ post.length) :
    fillOne post w = entryBytes w ++ post.drop (5 + w.data.length) := by
  cases post with
  | nil => simp at h
  | cons b0 post =>
  cases post with
  | nil => simp at h; omega
  | cons b1 post =>
  cases post with
  | nil => simp at h; omega
  | cons b2 post =>
  cases post with
  | nil => simp at h; omega
  | cons b3 post =>
  cases post with
  | nil => simp at h; omega
  | cons b4 rest =>
  simp only [List.length_cons] at h
  simp only [fillOne, write_u8_le, write_u16_le, List.set_cons_zero, List.set_cons_succ,
    copy_from_slice_cons]
  rw [copy_from_slice_zero w.data rest (by omega)]
  simp only [entryBytes, mod65536_mod256, mod65536_div256, List.cons_append, List.nil_append]
  rw [show 5 + w.data.length = w.data.length + 5 from by omega]
  simp [List.drop_succ_cons]

/-- An encoded entry occupies exactly `5 + data.len()` bytes. -/
theorem entryBytes_length (w : BulkWriteData) : (entryBytes w).length = 5 + w.data.length := by
  simp [entryBytes]
  omega

/-- The parameter block occupies exactly `parameterCount` bytes. -/
theorem entriesBytes_length (ws : List BulkWriteData) :
    (entriesBytes ws).length = parameterCount ws := by
  induction ws with
  | nil => rfl
  | cons w ws ih =>
    simp only [entriesBytes, List.map_cons, List.flatten_cons, List.length_append,
      entryBytes_length, parameterCount]
    simp only [entriesBytes] at ih
    omega

/-- The fill loop, run at offset `pre.length` over a suffix of exactly the
remaining parameter count, leaves the prefix untouched and fills the suffix
with the concatenated entries. -/
theorem fillLoop_append (ws : List BulkWriteData) (pre post : List Nat)
    (h : post.length = parameterCount ws) :
    fillLoop ws (pre ++ post) pre.length = pre ++ entriesBytes ws := by
  induction ws generalizing pre post with
  | nil =>
    have hpost : post = [] := List.eq_nil_of_length_eq_zero h
    simp [fillLoop, entriesBytes, hpost]
  | cons w ws ih =>
    have hlen : 5 + w.data.length ≤ post.length := by
      simp only [parameterCount] at h
      omega
    simp only [fillLoop, fillEntry, List.take_left, List.drop_left]
    rw [fillOne_eq post w hlen]
    have hassoc : pre ++ (entryBytes w ++ post.drop (5 + w.data.length)) =
        (pre ++ entryBytes w) ++ post.drop (5 + w.data.length) := by
      simp
    have hoff : pre.length + (5 + w.data.length) = (pre ++ entryBytes w).length := by
      simp [entryBytes_length]
    rw [hassoc, hoff, ih (pre ++ entryBytes w) (post.drop (5 + w.data.length)) ?_]
    · simp [entriesBytes]
    · simp only [List.length_drop, h, parameterCount]
      omega

/-- Any buffer of exactly the total parameter count is completely filled with
the concatenated entries, whatever its initial contents. -/
theorem fillLoop_fill (ws : List BulkWriteData) (init : List Nat)
    (h : init.length = parameterCount ws) :
    fillLoop ws init 0 = entriesBytes ws := by
  have := fillLoop_append ws [] init h
  simpa using this

/-- When no data slice is oversized, the first pass returns the accumulated
total. -/
theorem sizePass_ok (ws : List BulkWriteData) (h : ∀ w ∈ ws, w.data.length ≤ 65535)
    (acc : Nat) : sizePass ws acc = .ok (acc + parameterCount ws) := by
  induction ws generalizing acc with
  | nil => simp [sizePass, parameterCount]
  | cons w ws ih =>
    have hw : w.data.length ≤ 65535 := h w (List.mem_cons_self w ws)
    have hrest : ∀ x ∈ ws, x.data.length ≤ 65535 := fun x hx => h x (List.mem_cons_of_mem w hx)
    simp only [sizePass, parameterCount]
    rw [if_neg (by omega), ih hrest]
    congr 1
    omega

/-- The first pass panics at the first oversized data slice. -/
theorem sizePass_error (ws : List BulkWriteData) (w : BulkWriteData)
    (h : ws.find? (fun x => decide (x.data.length > 65535)) = some w) (acc : Nat) :
    sizePass ws acc = .error ⟨w.data.length, w.motor_id⟩ := by
  induction ws generalizing acc with
  | nil => simp [List.find?] at h
  | cons v ws ih =>
    by_cases hv : v.data.length > 65535
    · obtain rfl : v = w := by
        rw [List.find?_cons_of_pos _ (by simpa using hv)] at h
        exact Option.some.inj h
      simp only [sizePass]
      rw [if_pos hv]
    · have hrest : ws.find? (fun x => decide (x.data.length > 65535)) = some w := by
        rw [List.find?_cons_of_neg _ (by simpa using hv)] at h
        exact h
      simp only [sizePass]
      rw [if_neg hv]
      exact ih hrest _

/-- The total parameter count is Σ over the writes of `5 + payload length`. -/
theorem parameterCount_eq_sum (ws : List BulkWriteData) :
    parameterCount ws = (ws.map (fun w => 5 + w.data.length)).sum := by
  induction ws with
  | nil => rfl
  | cons w ws ih => simp [parameterCount, ih]

/-- For descriptors within the `u8` / `u16` ranges, the bytes of an entry are
exactly the spec's layout. -/
theorem entryBytes_eq_entrySpec (w : BulkWriteData) (hid : w.motor_id < 256)
    (haddr : w.address < 65536) (hlen : w.data.length ≤ 65535) :
    entryBytes w = entrySpec w := by
  simp only [entryBytes, entrySpec]
  have h1 : w.motor_id % 256 = w.motor_id := Nat.mod_eq_of_lt hid
  have h2 : w.address / 256 % 256 = w.address / 256 := Nat.mod_eq_of_lt (by omega)
  have h3 : w.data.length / 256 % 256 = w.data.length / 256 := Nat.mod_eq_of_lt (by omega)
  rw [h1, h2, h3]

/-- Decoding the concatenated entries reproduces the descriptors, in order. -/
theorem decodeBlock_entriesBytes (ws : List BulkWriteData)
    (h : ∀ w ∈ ws, w.motor_id < 256 ∧ w.address < 65536 ∧ w.data.length ≤ 65535) :
    decodeBlock (entriesBytes ws) = ws := by
  induction ws with
  | nil =>
    rw [show entriesBytes [] = [] from rfl, decodeBlock]
    simp
  | cons w ws ih =>
    obtain ⟨hid, haddr, hlen⟩ := h w (List.mem_cons_self w ws)
    have hrest := fun x hx => h x (List.mem_cons_of_mem w hx)
    have hblock : entriesBytes (w :: ws) =
        w.motor_id % 256 :: w.address % 256 :: w.address / 256 % 256 ::
          w.data.length % 256 :: w.data.length / 256 % 256 ::
          (w.data ++ entriesBytes ws) := by
      simp [entriesBytes, entryBytes]
    rw [hblock, decodeBlock]
    have hlenfield : w.data.length % 256 + 256 * (w.data.length / 256 % 256) =
        w.data.length := by omega
    have haddrfield : w.address % 256 + 256 * (w.address / 256 % 256) = w.address := by omega
    have hidfield : w.motor_id % 256 = w.motor_id := Nat.mod_eq_of_lt hid
    simp only [hlenfield, haddrfield, hidfield]
    rw [show (w.data ++ entriesBytes ws).take w.data.length = w.data from
      List.take_left w.data (entriesBytes ws)]
    rw [show (w.data ++ entriesBytes ws).drop w.data.length = entriesBytes ws from
      List.drop_left w.data (entriesBytes ws)]
    rw [ih hrest]

/-- The running offset of the fill loop advances by the parameter count. -/
theorem fillFinalOffset_eq (ws : List BulkWriteData) (offset : Nat) :
    fillFinalOffset ws offset = offset + parameterCount ws := by
  induction ws generalizing offset with
  | nil => simp [fillFinalOffset, parameterCount]
  | cons w ws ih =>
    simp only [fillFinalOffset, parameterCount, ih]
    omega

/-- Every entry of the fill loop stays within a buffer that holds the whole
remaining parameter count. -/
theorem fillInBounds_of_exact (ws : List BulkWriteData) (offset blen : Nat)
    (h : offset + parameterCount ws ≤ blen) : fillInBounds ws offset blen = true := by
  induction ws generalizing offset with
  | nil => rfl
  | cons w ws ih =>
    simp only [parameterCount] at h
    simp only [fillInBounds, Bool.and_eq_true, decide_eq_true_eq]
    exact ⟨by omega, ih _ (by omega)⟩

/-- When no data slice is oversized, `bulk_write` invokes `write_instruction`
with the exact parameter count, the fill closure produces the concatenated
entries, and the transport's result is returned. -/
theorem bulk_write_ok (ws : List BulkWriteData) (transport : Option TransportError)
    (hlen : ∀ w ∈ ws, w.data.length ≤ 65535) :
    bulk_write ws transport =
      .invoked (parameterCount ws) (entriesBytes ws) (transportResult transport) := by
  simp only [bulk_write, sizePass_ok ws hlen 0, Nat.zero_add]
  rw [fillLoop_fill ws _ (by simp)]

/-- When the first pass panics, the call's outcome is that panic, whatever the
transport would have done. -/
theorem bulk_write_panic (ws : List BulkWriteData) (transport : Option TransportError)
    (info : PanicInfo) (h : sizePass ws 0 = .error info) :
    bulk_write ws transport = .panicked info := by
  simp only [bulk_write, h]

/-! ## Claim theorems -/

/-- Claim C1 (code-bug evidence): the claim says a duplicated motor id makes
the call fail with the duplicate-device-id error and never reach the
transport, and the source's own doc comment says the function panics in that
case; in fact the code performs no duplicate check at all — at a concrete
input with motor id 3 twice, the call invokes `write_instruction` and encodes
both entries. -/
theorem C1_duplicate_ids_not_rejected :
    bulk_write [⟨3, 5, [1]⟩, ⟨3, 9, [2]⟩] none =
      .invoked 12 [3, 5, 0, 1, 0, 1, 3, 9, 0, 1, 0, 2] (.ok ()) := by
  decide

/-- Claim C2 (counterexample): the claim says an oversized payload makes
`bulk_write` return the `PayloadTooLarge` error value as the `Result` of the
call; at a concrete descriptor with a 65536-byte payload the call instead
panics, so no `Result` value at all is returned to the caller. -/
theorem C2_oversized_no_result_returned :
    (bulk_write [⟨7, 0, List.replicate 65536 0⟩] none).isPanic = true := by
  have hp : (fun x : BulkWriteData => decide (x.data.length > 65535))
      ⟨7, 0, List.replicate 65536 0⟩ = true := by
    show decide ((List.replicate (65536 : Nat) (0 : Nat)).length > 65535) = true
    simp only [List.length_replicate]
    decide
  have hfind : List.find? (fun x : BulkWriteData => decide (x.data.length > 65535))
      [⟨7, 0, List.replicate 65536 0⟩] = some ⟨7, 0, List.replicate 65536 0⟩ :=
    List.find?_cons_of_pos [] hp
  have h := bulk_write_panic _ none _ (sizePass_error _ _ hfind 0)
  rw [h]
  rfl

/-- Claim C2 (amended): for every descriptor sequence whose first oversized
descriptor (payload length > 65535) is `w`, `bulk_write` panics — carrying
`w`'s payload length and device id in the panic message — instead of
returning a `Result`; the transport is never invoked. -/
theorem C2_oversized_panics (ws : List BulkWriteData) (transport : Option TransportError)
    (w : BulkWriteData)
    (hfind : ws.find? (fun x => decide (x.data.length > 65535)) = some w) :
    bulk_write ws transport = .panicked ⟨w.data.length, w.motor_id⟩ :=
  bulk_write_panic ws transport _ (sizePass_error ws w hfind 0)

/-- Claim C2 witness: the amended claim at a concrete oversized descriptor,
with a failing transport to show the transport plays no role. -/
theorem C2_oversized_panics_witness :
    bulk_write [⟨9, 4, List.replicate 70000 1⟩] (some ⟨3⟩) = .panicked ⟨70000, 9⟩ := by
  have hp : (fun x : BulkWriteData => decide (x.data.length > 65535))
      ⟨9, 4, List.replicate 70000 1⟩ = true := by
    show decide ((List.replicate (70000 : Nat) (1 : Nat)).length > 65535) = true
    simp only [List.length_replicate]
    decide
  have h := C2_oversized_panics [⟨9, 4, List.replicate 70000 1⟩] (some ⟨3⟩)
    ⟨9, 4, List.replicate 70000 1⟩
    (show List.find? (fun x : BulkWriteData => decide (x.data.length > 65535))
        [⟨9, 4, List.replicate 70000 1⟩] = some ⟨9, 4, List.replicate 70000 1⟩ from
      List.find?_cons_of_pos [] hp)
  have hlen : (List.replicate (70000 : Nat) (1 : Nat)).length = 70000 :=
    List.length_replicate 70000 1
  rw [show (⟨9, 4, List.replicate 70000 1⟩ : BulkWriteData).data.length
      = (List.replicate (70000 : Nat) (1 : Nat)).length from rfl, hlen] at h
  exact h

/-- Claim C3: for every descriptor sequence with pairwise-distinct motor ids
and all payload lengths ≤ 65535, `bulk_write` succeeds against a succeeding
transport, requests from the transport a buffer of exactly
Σ (5 + payload length) bytes, and the produced parameter block's total length
equals that sum exactly. -/
theorem C3_success_exact_size (ws : List BulkWriteData)
    (_hdistinct : (ws.map BulkWriteData.motor_id).Nodup)
    (hlen : ∀ w ∈ ws, w.data.length ≤ 65535) :
    bulk_write ws none =
      .invoked ((ws.map (fun w => 5 + w.data.length)).sum) (entriesBytes ws) (.ok ()) ∧
    (entriesBytes ws).length = (ws.map (fun w => 5 + w.data.length)).sum := by
  have hok := bulk_write_ok ws none hlen
  rw [parameterCount_eq_sum] at hok
  exact ⟨hok, by rw [entriesBytes_length, parameterCount_eq_sum]⟩

/-- Claim C3 witness: the success shape at a concrete two-descriptor input. -/
theorem C3_success_exact_size_witness :
    bulk_write [⟨1, 2, [7, 8]⟩, ⟨3, 4, []⟩] none =
      .invoked ((([⟨1, 2, [7, 8]⟩, ⟨3, 4, []⟩] : List BulkWriteData).map
          (fun w => 5 + w.data.length)).sum)
        (entriesBytes [⟨1, 2, [7, 8]⟩, ⟨3, 4, []⟩]) (.ok ()) ∧
    (entriesBytes [⟨1, 2, [7, 8]⟩, ⟨3, 4, []⟩]).length =
      (([⟨1, 2, [7, 8]⟩, ⟨3, 4, []⟩] : List BulkWriteData).map
          (fun w => 5 + w.data.length)).sum :=
  C3_success_exact_size _ (by decide) (by decide)

/-- Claim C4: for descriptors within the `u8` / `u16` field ranges with
payload lengths ≤ 65535, the bytes written for each entry are exactly one
device-id byte, the register address little-endian, the payload length
little-endian, then the payload verbatim; in particular the descriptor
`{id:5, addr:10, payload:[]}` yields exactly the five bytes `05 0A 00 00 00`. -/
theorem C4_entry_layout (ws : List BulkWriteData)
    (hid : ∀ w ∈ ws, w.motor_id < 256) (haddr : ∀ w ∈ ws, w.address < 65536)
    (hlen : ∀ w ∈ ws, w.data.length ≤ 65535) :
    bulk_write ws none =
      .invoked (parameterCount ws) ((ws.map entrySpec).flatten) (.ok ()) ∧
    bulk_write [⟨5, 10, []⟩] none = .invoked 5 [5, 10, 0, 0, 0] (.ok ()) := by
  constructor
  · have hok := bulk_write_ok ws none hlen
    have hmap : ws.map entryBytes = ws.map entrySpec :=
      List.map_congr_left fun w hw =>
        entryBytes_eq_entrySpec w (hid w hw) (haddr w hw) (hlen w hw)
    simpa only [entriesBytes, hmap] using hok
  · decide

/-- Claim C4 witness: the layout at a concrete input with a multi-byte
address and payload. -/
theorem C4_entry_layout_witness :
    bulk_write [⟨6, 300, [1, 2, 3]⟩] none =
      .invoked (parameterCount [⟨6, 300, [1, 2, 3]⟩])
        (([⟨6, 300, [1, 2, 3]⟩] : List BulkWriteData).map entrySpec).flatten (.ok ()) ∧
    bulk_write [⟨5, 10, []⟩] none = .invoked 5 [5, 10, 0, 0, 0] (.ok ()) :=
  C4_entry_layout _ (by decide) (by decide) (by decide)

/-- Claim C5: for every valid descriptor sequence (pairwise-distinct ids, all
fields in range, payload lengths ≤ 65535), decoding the produced parameter
block entry by entry reproduces the original descriptors in the exact input
order — a round trip; the encoder never reorders entries. -/
theorem C5_decode_roundtrip (ws : List BulkWriteData)
    (_hdistinct : (ws.map BulkWriteData.motor_id).Nodup)
    (hw : ∀ w ∈ ws, w.motor_id < 256 ∧ w.address < 65536 ∧ w.data.length ≤ 65535) :
    bulk_write ws none = .invoked (parameterCount ws) (entriesBytes ws) (.ok ()) ∧
    decodeBlock (entriesBytes ws) = ws :=
  ⟨bulk_write_ok ws none fun w hw' => (hw w hw').2.2,
   decodeBlock_entriesBytes ws hw⟩

/-- Claim C5 witness: the round trip at a concrete two-descriptor input. -/
theorem C5_decode_roundtrip_witness :
    bulk_write [⟨1, 700, [9, 9]⟩, ⟨2, 3, [8]⟩] none =
      .invoked (parameterCount [⟨1, 700, [9, 9]⟩, ⟨2, 3, [8]⟩])
        (entriesBytes [⟨1, 700, [9, 9]⟩, ⟨2, 3, [8]⟩]) (.ok ()) ∧
    decodeBlock (entriesBytes [⟨1, 700, [9, 9]⟩, ⟨2, 3, [8]⟩]) =
      [⟨1, 700, [9, 9]⟩, ⟨2, 3, [8]⟩] :=
  C5_decode_roundtrip _ (by decide) (by decide)

/-- Claim C6: every validation failure of `bulk_write` (an oversized payload
found in the first pass — the only validation the code performs) occurs before
any buffer is requested: on any call failing validation the outcome is a panic
and is independent of anything the transport would do, so `write_instruction`
is never invoked and zero bus activity takes place. -/
theorem C6_validation_failure_never_invokes (ws : List BulkWriteData)
    (transport : Option TransportError)
    (h : ∃ w ∈ ws, w.data.length > 65535) :
    (bulk_write ws transport).isPanic = true ∧
    ∀ t1 t2 : Option TransportError, bulk_write ws t1 = bulk_write ws t2 := by
  have hfind : (ws.find? (fun x => decide (x.data.length > 65535))).isSome = true := by
    rw [List.find?_isSome]
    obtain ⟨w, hmem, hlen⟩ := h
    exact ⟨w, hmem, by simpa using hlen⟩
  obtain ⟨w, hw⟩ := Option.isSome_iff_exists.mp hfind
  have herr := sizePass_error ws w hw
  constructor
  · rw [bulk_write_panic ws transport _ (herr 0)]
    rfl
  · intro t1 t2
    rw [bulk_write_panic ws t1 _ (herr 0), bulk_write_panic ws t2 _ (herr 0)]

/-- Claim C6 witness: at a concrete oversized input, the call panics and its
outcome does not depend on whether the transport would succeed or fail. -/
theorem C6_validation_failure_never_invokes_witness :
    (bulk_write [⟨2, 0, List.replicate 65600 0⟩] (some ⟨5⟩)).isPanic = true ∧
    bulk_write [⟨2, 0, List.replicate 65600 0⟩] (some ⟨5⟩) =
      bulk_write [⟨2, 0, List.replicate 65600 0⟩] none := by
  have hlen : (⟨2, 0, List.replicate 65600 0⟩ : BulkWriteData).data.length > 65535 := by
    show (List.replicate (65600 : Nat) (0 : Nat)).length > 65535
    simp only [List.length_replicate]
    decide
  have h := C6_validation_failure_never_invokes [⟨2, 0, List.replicate 65600 0⟩]
    (some ⟨5⟩) ⟨⟨2, 0, List.replicate 65600 0⟩, List.mem_singleton.mpr rfl, hlen⟩
  exact ⟨h.1, h.2 (some ⟨5⟩) none⟩

/-- Claim C7: under the precondition that every payload length is ≤ 65535 and
the buffer handed to the fill closure has exactly the computed total length,
every slice taken during the fill pass is in bounds, the running offset after
the last entry equals the buffer length exactly, and the closure overwrites
the whole buffer (the result is the concatenated entries, independent of the
buffer's initial contents — no unwritten gaps). -/
theorem C7_fill_exact_and_in_bounds (ws : List BulkWriteData) (init : List Nat)
    (_hlen : ∀ w ∈ ws, w.data.length ≤ 65535)
    (hinit : init.length = parameterCount ws) :
    fillInBounds ws 0 init.length = true ∧
    fillFinalOffset ws 0 = init.length ∧
    fillLoop ws init 0 = entriesBytes ws := by
  refine ⟨fillInBounds_of_exact ws 0 init.length (by omega), ?_, fillLoop_fill ws init hinit⟩
  rw [fillFinalOffset_eq]
  omega

/-- Claim C7 witness: the fill pass at a concrete descriptor and an exactly
sized buffer. -/
theorem C7_fill_exact_and_in_bounds_witness :
    fillInBounds [⟨1, 2, [3, 4]⟩] 0 (List.replicate 7 0).length = true ∧
    fillFinalOffset [⟨1, 2, [3, 4]⟩] 0 = (List.replicate 7 0).length ∧
    fillLoop [⟨1, 2, [3, 4]⟩] (List.replicate 7 0) 0 = entriesBytes [⟨1, 2, [3, 4]⟩] :=
  C7_fill_exact_and_in_bounds _ _ (by decide) (by decide)

/-- Claim C8: the two-descriptor example of the spec — a 4-byte value at
address 116 for motor 1 and a 2-byte value at address 102 for motor 2 —
produces exactly the sixteen bytes
`01 74 00 04 00 D0 07 00 00 02 66 00 02 00 2C 01`. -/
theorem C8_concrete_two_motors :
    bulk_write [⟨1, 116, [0xD0, 0x07, 0x00, 0x00]⟩, ⟨2, 102, [0x2C, 0x01]⟩] none =
      .invoked 16
        [0x01, 0x74, 0x00, 0x04, 0x00, 0xD0, 0x07, 0x00, 0x00,
         0x02, 0x66, 0x00, 0x02, 0x00, 0x2C, 0x01] (.ok ()) := by
  decide

/-- Claim C9: the empty descriptor sequence succeeds against a succeeding
transport, requesting a zero-length parameter block and writing nothing. -/
theorem C9_empty_input :
    bulk_write [] none = .invoked 0 [] (.ok ()) := rfl

/-- Claim C10 (implicit behavior): when some motor id appears in more than one
descriptor but every payload length is ≤ 65535, `bulk_write` performs no
duplicate detection: it invokes the transport with one entry per descriptor,
duplicates included, in input order (decoding the block returns exactly the
input sequence). -/
theorem C10_duplicates_encoded (ws : List BulkWriteData) (transport : Option TransportError)
    (_hdup : ¬ (ws.map BulkWriteData.motor_id).Nodup)
    (hw : ∀ w ∈ ws, w.motor_id < 256 ∧ w.address < 65536 ∧ w.data.length ≤ 65535) :
    bulk_write ws transport =
      .invoked (parameterCount ws) (entriesBytes ws) (transportResult transport) ∧
    decodeBlock (entriesBytes ws) = ws :=
  ⟨bulk_write_ok ws transport fun w h => (hw w h).2.2,
   decodeBlock_entriesBytes ws hw⟩

/-- Claim C10 witness: motor id 4 appears twice; both entries are encoded in
order and the transport is invoked. -/
theorem C10_duplicates_encoded_witness :
    bulk_write [⟨4, 1, [9]⟩, ⟨4, 2, []⟩] none =
      .invoked (parameterCount [⟨4, 1, [9]⟩, ⟨4, 2, []⟩])
        (entriesBytes [⟨4, 1, [9]⟩, ⟨4, 2, []⟩]) (transportResult none) ∧
    decodeBlock (entriesBytes [⟨4, 1, [9]⟩, ⟨4, 2, []⟩]) = [⟨4, 1, [9]⟩, ⟨4, 2, []⟩] :=
  C10_duplicates_encoded _ _ (by decide) (by decide)
